import Mathlib

/-!
# Verification of the GPN Prompt Library core

A shallow embedding of the entry store, derived view engine, entry editor and
the spreadsheet export/import bridge of the GPN prompt library, together with
proofs of the behavioural properties stated in its specification.

Strings are modelled with Lean `String`; the JavaScript string operations used
by the code (`split`, `trim`, `toLowerCase`, `includes`, `join`) are defined
below by structural recursion over the character list so that every definition
evaluates inside the kernel.  Environment-supplied effects (`Date` parsing and
formatting, `crypto.randomUUID`, `Date.now`-based id generation) are passed in
as function parameters, since their values depend on the runtime environment.
-/

namespace GPN

/-! ## JavaScript string primitives -/

/-- Whitespace recognised by JavaScript `trim` (the ASCII part, which is all
the repository ever produces). -/
def isJsWhitespace (c : Char) : Bool :=
  c = ' ' || c = '\t' || c = '\n' || c = '\r' || c = '\x0b' || c = '\x0c'

/-- Remove leading and trailing whitespace from a character list. -/
def trimList (l : List Char) : List Char :=
  ((l.dropWhile isJsWhitespace).reverse.dropWhile isJsWhitespace).reverse

/-- JavaScript `String.prototype.trim`. -/
def jsTrim (s : String) : String :=
  String.mk (trimList s.toList)

/-- JavaScript `String.prototype.split` with a single-character separator,
on character lists.  `split` of the empty string is `[""]`. -/
def splitOnChar (sep : Char) : List Char → List (List Char)
  | [] => [[]]
  | c :: rest =>
    if c = sep then [] :: splitOnChar sep rest
    else
      match splitOnChar sep rest with
      | [] => [[c]]
      | h :: t => (c :: h) :: t

/-- JavaScript `String.prototype.split` with a single-character separator. -/
def jsSplit (sep : Char) (s : String) : List String :=
  (splitOnChar sep s.toList).map String.mk

/-- JavaScript `Array.prototype.join`. -/
def jsJoin (sep : String) : List String → String
  | [] => ""
  | [x] => x
  | x :: y :: rest => x ++ sep ++ jsJoin sep (y :: rest)

/-- JavaScript `String.prototype.toLowerCase` (ASCII case folding). -/
def jsToLower (s : String) : String :=
  String.mk (s.toList.map Char.toLower)

/-- Test whether `sub` occurs as a contiguous sublist of the second argument. -/
def hasSubList (sub : List Char) : List Char → Bool
  | [] => sub.isEmpty
  | c :: rest => sub.isPrefixOf (c :: rest) || hasSubList sub rest

/-- JavaScript `s.includes(sub)`. -/
def jsIncludes (s sub : String) : Bool :=
  hasSubList sub.toList s.toList

/-- Model of `Array.prototype.map` when the callback also receives the element index. -/
def mapWithIndex (f : Nat → α → β) : Nat → List α → List β
  | _, [] => []
  | i, a :: as => f i a :: mapWithIndex f (i + 1) as

/-! ## Data model (`src/types.ts`) -/

/-- A key/value parameter row of an entry (`PromptParameter` in `types.ts`). -/
structure PromptParameter where
  id : String
  key : String
  value : String
deriving DecidableEq, Repr

/-- One before/after prompt record (`PromptEntry` in `types.ts`).  Optional
fields of the TypeScript interface become `Option`s. -/
structure PromptEntry where
  id : String
  beforeImage : Option String := none
  afterImage : Option String := none
  prompt : String
  model : Option String := none
  parameters : List PromptParameter
  tags : List String
  createdAt : String
  isFavorite : Option Bool := none
deriving DecidableEq, Repr

/-! ## Entry store and derived views (`App`, `src/unnamed/part_001`) -/

/-- Page size used by the grid (`ITEMS_PER_PAGE` in `App`). -/
def ITEMS_PER_PAGE : Nat := 12

/-- Model of `handleSavePrompt` in `App`: upsert by `id`.  `findIndex` matched by `===`
on ids; a hit replaces that slot, a miss prepends the entry. -/
def handleSavePrompt (entry : PromptEntry) (prev : List PromptEntry) : List PromptEntry :=
  match prev.findIdx? (fun p => p.id == entry.id) with
  | some existingIndex => prev.set existingIndex entry
  | none => entry :: prev

/-- The top-level display mode (`currentView` in `App`). -/
inductive View where
  | all
  | favorites
  | report
deriving DecidableEq, Repr

/-- The text-match test inside `filteredPrompts`: case-insensitive substring
match of the search term against `prompt`, `model` (when present and nonempty,
mirroring the JavaScript truthiness test `p.model && ...`), or any tag. -/
def matchesSearch (searchTerm : String) (p : PromptEntry) : Bool :=
  let searchLower := jsToLower searchTerm
  jsIncludes (jsToLower p.prompt) searchLower ||
    (match p.model with
     | some m => !(m == "") && jsIncludes (jsToLower m) searchLower
     | none => false) ||
    p.tags.any (fun t => jsIncludes (jsToLower t) searchLower)

/-- The tag-match test inside `filteredPrompts`: passes when no tag is
selected, or when some tag of the entry is selected (OR semantics). -/
def matchesTags (selectedTags : List String) (p : PromptEntry) : Bool :=
  selectedTags.isEmpty || p.tags.any (fun t => selectedTags.contains t)

/-- The predicate of the `.filter` call in `filteredPrompts`: the favorites
view rejects non-favorite entries up front, the rest must pass both the text
and the tag filter. -/
def entryPasses (currentView : View) (searchTerm : String) (selectedTags : List String)
    (p : PromptEntry) : Bool :=
  if currentView == View.favorites && !(p.isFavorite.getD false) then false
  else matchesSearch searchTerm p && matchesTags selectedTags p

/-- Model of `filteredPrompts` in `App`: filter, then sort by parsed `createdAt`
descending with JavaScript's stable `Array.prototype.sort` (modelled by
`List.mergeSort`, which is stable).  `time` stands for
`s ↦ new Date(s).getTime()`, an environment-supplied parse. -/
def filteredPrompts (time : String → Int) (currentView : View) (searchTerm : String)
    (selectedTags : List String) (prompts : List PromptEntry) : List PromptEntry :=
  (prompts.filter (entryPasses currentView searchTerm selectedTags)).mergeSort
    (fun a b => time b.createdAt ≤ time a.createdAt)

/-- Model of `totalPages` in `App`: `Math.ceil(len / ITEMS_PER_PAGE)`. -/
def totalPages (filteredLen : Nat) : Nat :=
  (filteredLen + ITEMS_PER_PAGE - 1) / ITEMS_PER_PAGE

/-- Model of `paginatedPrompts` in `App`: the slice
`[(page-1)*ITEMS_PER_PAGE, page*ITEMS_PER_PAGE)` of the filtered sequence
(for the 1-based pages the app uses). -/
def paginatedPrompts (filtered : List PromptEntry) (currentPage : Nat) : List PromptEntry :=
  (filtered.drop ((currentPage - 1) * ITEMS_PER_PAGE)).take ITEMS_PER_PAGE

/-- The page-correction `useEffect` in `App`: the page resulting from one run
of the effect.  Note both branches are guarded by `totalPages > 0`. -/
def clampCurrentPage (currentPage totalPagesNow : Nat) : Nat :=
  if currentPage > totalPagesNow ∧ totalPagesNow > 0 then totalPagesNow
  else if currentPage = 0 ∧ totalPagesNow > 0 then 1
  else currentPage

/-! ## Entry editor (`src/components/PromptModal.tsx`) -/

/-- JavaScript `a || b` on an optionally-present string (`undefined` and `""`
are both falsy). -/
def jsOrElse (a : Option String) (b : String) : String :=
  match a with
  | some s => if s == "" then b else s
  | none => b

/-- The editor's staged state relevant to `handleSave`. -/
structure EditorState where
  prompt : String
  beforeImage : Option String := none
  afterImage : Option String := none
  model : String := ""
  parameters : List PromptParameter := []
  tags : List String := []
  tagInput : String := ""
deriving DecidableEq, Repr

/-- The `errors` object built by `handleSave`; a field is `some msg` when the
corresponding validation message was set. -/
structure SaveErrors where
  promptMsg : Option String := none
  imageMsg : Option String := none
deriving DecidableEq, Repr

/-- Model of `handleSave` in `PromptModal`: validate, fold the pending tag input into
the tag list, drop parameter rows whose key is blank, and construct the entry.
`initialData` is the entry being edited (`none` when creating); `freshId`
stands for `generateId()` and `now` for `new Date().toISOString()`. -/
def handleSave (st : EditorState) (initialData : Option PromptEntry)
    (freshId now : String) : Except SaveErrors PromptEntry :=
  let currentErrors : SaveErrors :=
    { promptMsg := if jsTrim st.prompt == "" then some "Prompt is required." else none
      imageMsg :=
        if st.beforeImage.isNone && st.afterImage.isNone then
          some "At least one image (Before or After) is required."
        else none }
  if currentErrors.promptMsg.isSome || currentErrors.imageMsg.isSome then
    Except.error currentErrors
  else
    let finalTags :=
      if !(jsTrim st.tagInput == "") && !(st.tags.contains (jsTrim st.tagInput)) then
        st.tags ++ [jsTrim st.tagInput]
      else st.tags
    Except.ok
      { id := jsOrElse (initialData.map (·.id)) freshId
        prompt := st.prompt
        beforeImage := st.beforeImage
        afterImage := st.afterImage
        model := some st.model
        parameters := st.parameters.filter (fun p => !(jsTrim p.key == ""))
        tags := finalTags
        createdAt := jsOrElse (initialData.map (·.createdAt)) now
        isFavorite := none }

/-! ## Export/import bridge (`src/utils/storageManager.ts`)

The spreadsheet is modelled by its data rows: styling, column widths, the
embedded image objects and the zip packaging are presentation that the import
path never reads.  A cell that the export leaves empty is modelled as `""`. -/

/-- One data row of the `Prompts` worksheet, in the fixed column layout of
`exportToExcelWithImages`. -/
structure ExcelRow where
  no : Nat
  beforeImage : String := ""
  afterImage : String := ""
  prompt : String
  model : String
  tags : String
  parameters : String
  createdAt : String
  favorite : String
  id : String
deriving DecidableEq, Repr

/-- The row built for one prompt inside the export loop of
`exportToExcelWithImages`.  `toLocale` stands for
`s ↦ new Date(s).toLocaleString()`, an environment-supplied format. -/
def exportRow (toLocale : String → String) (promptNumber : Nat) (p : PromptEntry) : ExcelRow :=
  { no := promptNumber
    beforeImage := ""
    afterImage := ""
    prompt := p.prompt
    model := p.model.getD ""
    tags := jsJoin ", " p.tags
    parameters := jsJoin "; " (p.parameters.map (fun q => q.key ++ ": " ++ q.value))
    createdAt := toLocale p.createdAt
    favorite := if p.isFavorite.getD false then "Yes" else "No"
    id := p.id }

/-- The worksheet rows written by `exportToExcelWithImages` (prompt `i` gets
number `i + 1`). -/
def exportToExcelWithImages (toLocale : String → String)
    (prompts : List PromptEntry) : List ExcelRow :=
  mapWithIndex (fun i p => exportRow toLocale (i + 1) p) 0 prompts

/-- The callback of the parameters-cell `.map` inside `importFromExcel`:
split one `key: value` piece on colons, trim, and build the parameter row
with a fresh id. -/
def importParam (uuidP : Nat → String) (i : Nat) (s : String) : PromptParameter :=
  let parts := (jsSplit ':' s).map jsTrim
  { id := uuidP i
    key := parts.headD ""
    value := (parts.drop 1).headD "" }

/-- The entry parsed from one data row by `importFromExcel`.  `uuidP i` stands
for the `crypto.randomUUID()` of the `i`-th parameter, `uuidE` for the fallback
entry id, `parseDate` for `s ↦ new Date(s).toISOString()` and `now` for the
import-time timestamp. -/
def importRow (uuidP : Nat → String) (uuidE : String) (parseDate : String → String)
    (now : String) (r : ExcelRow) : PromptEntry :=
  let parameters : List PromptParameter :=
    if r.parameters == "" then []
    else
      (mapWithIndex (importParam uuidP) 0 (jsSplit ';' r.parameters)).filter
        (fun p => !(p.key == "") && !(p.value == ""))
  let tags : List String :=
    if r.tags == "" then []
    else ((jsSplit ',' r.tags).map jsTrim).filter (fun t => !(t == ""))
  { id := if r.id == "" then uuidE else r.id
    prompt := r.prompt
    model := if r.model == "" then none else some r.model
    tags := tags
    parameters := parameters
    createdAt := if r.createdAt == "" then now else parseDate r.createdAt
    isFavorite := some (r.favorite == "Yes")
    beforeImage := none
    afterImage := none }

/-- Model of `importFromExcel`: parse every data row (the header row is skipped by the
source; our row list holds only data rows). -/
def importFromExcel (uuidP : Nat → Nat → String) (uuidE : Nat → String)
    (parseDate : String → String) (now : String) (rows : List ExcelRow) : List PromptEntry :=
  mapWithIndex (fun i r => importRow (uuidP i) (uuidE i) parseDate now r) 0 rows

/-- Model of `parseInt` on a nonempty run of decimal digits. -/
def digitsToNat (l : List Char) : Nat :=
  l.foldl (fun n c => n * 10 + (c.toNat - '0'.toNat)) 0

/-- The filename test of `matchImagesToPrompts`: the regular expression
`^(\d+)_(Before|After)\.` with the case-insensitive flag.  Returns the parsed
number and whether the file is a before-image. -/
def parseImageName (filename : String) : Option (Nat × Bool) :=
  let cs := filename.toList
  let digits := cs.takeWhile Char.isDigit
  let rest := cs.dropWhile Char.isDigit
  if digits.isEmpty then none
  else
    match rest with
    | '_' :: afterUnderscore =>
      let low := afterUnderscore.map Char.toLower
      if ("before.".toList).isPrefixOf low then
        some (digitsToNat digits, true)
      else if ("after.".toList).isPrefixOf low then
        some (digitsToNat digits, false)
      else none
    | _ => none

/-- One step of the `imageMap.forEach` loop inside `matchImagesToPrompts`,
acting on the pair (beforeImage, afterImage) of the current prompt. -/
def matchStep (promptNumber : Nat) (acc : Option String × Option String)
    (fb : String × String) : Option String × Option String :=
  match parseImageName fb.1 with
  | some (fileNumber, isBefore) =>
    if fileNumber = promptNumber then
      if isBefore then (some fb.2, acc.2) else (acc.1, some fb.2)
    else acc
  | none => acc

/-- The body of the `prompts.map` callback of `matchImagesToPrompts`: run the
`forEach` loop over the image map for the prompt at 0-based `index`. -/
def matchOne (imageMap : List (String × String)) (index : Nat) (p : PromptEntry) : PromptEntry :=
  let final := imageMap.foldl (matchStep (index + 1)) (p.beforeImage, p.afterImage)
  { p with beforeImage := final.1, afterImage := final.2 }

/-- Model of `matchImagesToPrompts`: for the prompt at 0-based `index`, every file
named `{index+1}_{Before|After}.{ext}` (case-insensitive) overwrites the
corresponding image; the image map is a filename/data association in insertion
order, as iterated by `Map.prototype.forEach`. -/
def matchImagesToPrompts (prompts : List PromptEntry)
    (imageMap : List (String × String)) : List PromptEntry :=
  mapWithIndex (matchOne imageMap) 0 prompts

/-- The image that ends up attached by the `forEach` loop: the data of the
last file in insertion order whose name parses to `(promptNumber, isBefore)`. -/
def lastImage (promptNumber : Nat) (isBefore : Bool)
    (imageMap : List (String × String)) : Option String :=
  ((imageMap.filter (fun fb => parseImageName fb.1 == some (promptNumber, isBefore))).map
    (·.2)).getLast?

/-! ## Concrete sample data used by the witnesses -/

/-- A stored favorited entry with id `"a"`. -/
def sampleOld : PromptEntry :=
  { id := "a", prompt := "cat", beforeImage := some "IMG0", parameters := []
    tags := ["x"], createdAt := "2024-01-01", isFavorite := some true }

/-- An edited version of the entry with id `"a"`. -/
def sampleNew : PromptEntry :=
  { id := "a", prompt := "cat riding a bike", beforeImage := some "IMG1", parameters := []
    tags := ["x"], createdAt := "2024-01-01" }

/-- A stored entry with id `"b"`. -/
def sampleOther : PromptEntry :=
  { id := "b", prompt := "dog", afterImage := some "IMG2", parameters := []
    tags := ["y"], createdAt := "2024-01-02", isFavorite := some false }

/-! ## C3: upsert semantics of the entry store -/

/-- C3.  Upserting an entry whose id already occurs (at first position `i`)
replaces that slot: the count is unchanged, position `i` now holds the new
entry, and every other position is untouched.  Upserting an entry whose id is
absent prepends it: the result is literally `entry :: prev`, so the count
grows by one and every previous entry reappears shifted by one. -/
theorem handleSavePrompt_spec (entry : PromptEntry) (prev : List PromptEntry) :
    (∀ i, prev.findIdx? (fun p => p.id == entry.id) = some i →
      (handleSavePrompt entry prev).length = prev.length ∧
      (handleSavePrompt entry prev)[i]? = some entry ∧
      ∀ j, j ≠ i → (handleSavePrompt entry prev)[j]? = prev[j]?) ∧
    ((∀ p ∈ prev, p.id ≠ entry.id) →
      handleSavePrompt entry prev = entry :: prev ∧
      (handleSavePrompt entry prev).length = prev.length + 1 ∧
      (handleSavePrompt entry prev)[0]? = some entry ∧
      ∀ j, (handleSavePrompt entry prev)[j + 1]? = prev[j]?) ∧
    ((prev.findIdx? (fun p => p.id == entry.id)).isSome = true ↔
      ∃ p ∈ prev, p.id = entry.id) := by
  refine ⟨?_, ?_, ?_⟩
  · intro i hi
    have hlt : i < prev.length := by
      obtain ⟨h, -⟩ := List.findIdx?_eq_some_iff_getElem.mp hi
      exact h
    unfold handleSavePrompt
    rw [hi]
    exact ⟨List.length_set prev i entry, List.getElem?_set_self hlt,
      fun j hj => List.getElem?_set_ne (Ne.symm hj)⟩
  · intro h
    have hnone : prev.findIdx? (fun p => p.id == entry.id) = none := by
      rw [List.findIdx?_eq_none_iff]
      intro x hx
      simpa using h x hx
    unfold handleSavePrompt
    rw [hnone]
    refine ⟨rfl, rfl, by simp, fun j => by simp⟩
  · rw [List.findIdx?_isSome, List.any_eq_true]
    simp

/-- Witness for C3: replacing the entry with id `"a"` at position 1 of a
two-entry store keeps the length at 2, stores the new version at position 1
and leaves position 0 alone; prepending a fresh id gives the cons cell. -/
theorem handleSavePrompt_spec_witness :
    ((handleSavePrompt sampleNew [sampleOther, sampleOld]).length = 2 ∧
      (handleSavePrompt sampleNew [sampleOther, sampleOld])[1]? = some sampleNew ∧
      (handleSavePrompt sampleNew [sampleOther, sampleOld])[0]? = some sampleOther) ∧
    handleSavePrompt sampleOther [sampleOld] = sampleOther :: [sampleOld] := by
  have h := (handleSavePrompt_spec sampleNew [sampleOther, sampleOld]).1 1 (by decide)
  have h2 := (handleSavePrompt_spec sampleOther [sampleOld]).2.1 (by decide)
  exact ⟨⟨h.1, h.2.1, h.2.2 0 (by decide)⟩, h2.1⟩

/-! ## C2: page clamping after a filter change -/

/-- Counterexample for C2 as stated: with an empty filtered result set
(`totalPages 0 = 0`) the correction effect leaves an out-of-range page
untouched instead of resetting it to page 1. -/
theorem clampCurrentPage_counterexample :
    totalPages 0 = 0 ∧ clampCurrentPage 5 (totalPages 0) = 5 ∧ (5 : Nat) ≠ 1 := by
  decide

/-- C2 (amended).  When the filtered result set is nonempty and the current
page exceeds the page count, the effect clamps the page to the last valid page
(which is at least 1); when the result set is empty the effect leaves the page
unchanged; a page of 0 with a nonempty result set is reset to page 1. -/
theorem clampCurrentPage_spec (filteredLen currentPage : Nat) :
    (0 < filteredLen → totalPages filteredLen < currentPage →
      clampCurrentPage currentPage (totalPages filteredLen) = totalPages filteredLen ∧
      1 ≤ totalPages filteredLen) ∧
    (filteredLen = 0 →
      clampCurrentPage currentPage (totalPages filteredLen) = currentPage) ∧
    (0 < filteredLen → currentPage = 0 →
      clampCurrentPage currentPage (totalPages filteredLen) = 1) := by
  unfold clampCurrentPage totalPages ITEMS_PER_PAGE
  refine ⟨fun h1 h2 => ⟨?_, ?_⟩, fun h => ?_, fun h1 h2 => ?_⟩ <;>
    first
      | omega
      | (split_ifs <;> omega)

/-- Witness for C2: with 13 filtered entries there are 2 pages, and a stale
page 5 is clamped back to page 2; with 0 entries page 5 stays page 5. -/
theorem clampCurrentPage_spec_witness :
    (clampCurrentPage 5 (totalPages 13) = totalPages 13 ∧ 1 ≤ totalPages 13) ∧
    clampCurrentPage 5 (totalPages 0) = 5 :=
  ⟨(clampCurrentPage_spec 13 5).1 (by decide) (by decide),
    (clampCurrentPage_spec 0 5).2.1 rfl⟩

/-! ## C8: pagination -/

/-- Appending one leading chunk of 12 absorbs one page: chunking `l` is the
first 12 elements followed by the chunking of `l.drop 12`. -/
theorem pages_flatten (l : List PromptEntry) :
    ((List.range (totalPages l.length)).map (fun k => paginatedPrompts l (k + 1))).flatten
      = l := by
  suffices h : ∀ n (l : List PromptEntry), l.length ≤ n →
      ((List.range (totalPages l.length)).map (fun k => paginatedPrompts l (k + 1))).flatten
        = l from h l.length l le_rfl
  intro n
  induction n with
  | zero =>
    intro l hl
    have : l = [] := by
      cases l with
      | nil => rfl
      | cons a as => simp at hl
    subst this
    simp [totalPages, ITEMS_PER_PAGE]
  | succ n ih =>
    intro l hl
    by_cases h0 : l.length = 0
    · have : l = [] := List.length_eq_zero.mp h0
      subst this
      simp [totalPages, ITEMS_PER_PAGE]
    · have hTP : totalPages l.length = totalPages (l.drop 12).length + 1 := by
        simp only [List.length_drop]
        unfold totalPages ITEMS_PER_PAGE
        omega
      rw [hTP, List.range_succ_eq_map]
      simp only [List.map_cons, List.map_map, List.flatten_cons]
      have hhead : paginatedPrompts l (0 + 1) = l.take 12 := by
        simp [paginatedPrompts, ITEMS_PER_PAGE]
      have hfun : ∀ k, paginatedPrompts l (Nat.succ k + 1) = paginatedPrompts (l.drop 12) (k + 1) := by
        intro k
        unfold paginatedPrompts ITEMS_PER_PAGE
        rw [List.drop_drop]
        congr 2
        omega
      have hmap : (List.range (totalPages (l.drop 12).length)).map
            ((fun k => paginatedPrompts l (k + 1)) ∘ Nat.succ)
          = (List.range (totalPages (l.drop 12).length)).map
            (fun k => paginatedPrompts (l.drop 12) (k + 1)) :=
        List.map_congr_left (fun k _ => hfun k)
      rw [hhead, hmap, ih (l.drop 12) (by simp; omega)]
      exact List.take_append_drop 12 l

/-- C8.  For 1-based pages, `paginatedPrompts` returns exactly the slice
`[(page-1)*12, page*12)` of the filtered sequence — position `j` of the page
is position `(page-1)*12 + j` of the sequence and pages hold at most 12
entries — and concatenating pages `1..totalPages` in order reproduces the
filtered sequence, each element exactly once. -/
theorem paginatedPrompts_spec (filtered : List PromptEntry) (page : Nat)
    (_hpage : 1 ≤ page) :
    (paginatedPrompts filtered page).length ≤ ITEMS_PER_PAGE ∧
    (∀ j, (paginatedPrompts filtered page)[j]? =
      if j < ITEMS_PER_PAGE then filtered[(page - 1) * ITEMS_PER_PAGE + j]? else none) ∧
    ((List.range (totalPages filtered.length)).map
      (fun k => paginatedPrompts filtered (k + 1))).flatten = filtered := by
  refine ⟨?_, ?_, pages_flatten filtered⟩
  · unfold paginatedPrompts
    simp [List.length_take]
  · intro j
    unfold paginatedPrompts
    rw [List.getElem?_take, List.getElem?_drop]

/-- Witness for C8: a 13-entry list has 2 pages; position 0 of page 2 is
position 12 of the list, and the two pages flatten back to the list. -/
theorem paginatedPrompts_spec_witness :
    (paginatedPrompts (List.replicate 13 sampleOld) 2).length ≤ ITEMS_PER_PAGE ∧
    (paginatedPrompts (List.replicate 13 sampleOld) 2)[0]? =
      (List.replicate 13 sampleOld)[12]? ∧
    ((List.range (totalPages (List.replicate 13 sampleOld).length)).map
      (fun k => paginatedPrompts (List.replicate 13 sampleOld) (k + 1))).flatten =
      List.replicate 13 sampleOld := by
  have h := paginatedPrompts_spec (List.replicate 13 sampleOld) 2 (by decide)
  refine ⟨h.1, ?_, h.2.2⟩
  rw [h.2.1 0]
  decide
/-! ## C5, C6, C9: the editor's save -/

/-- Counterexample for C5 as stated: the tag-input text `" "` is non-empty,
yet a successful save does not fold it into the tag list (the code folds only
input that is non-blank after trimming and not already present). -/
theorem handleSave_counterexample :
    ({ prompt := "p", beforeImage := some "IMG", tagInput := " " : EditorState }).tagInput ≠ "" ∧
    handleSave { prompt := "p", beforeImage := some "IMG", tagInput := " " } none "fid" "T0" =
      Except.ok
        { id := "fid", prompt := "p", beforeImage := some "IMG", afterImage := none
          model := some "", parameters := [], tags := [], createdAt := "T0"
          isFavorite := none } := by
  exact ⟨by decide, rfl⟩

/-- C5 (amended).  Saving with a blank prompt fails with a validation error
citing the prompt field (even when an image is set); saving with a non-blank
prompt and no image fails citing the image field; saving with a non-blank
prompt and at least one image succeeds, producing no error, keeping the prompt
text, dropping exactly the parameter rows whose key is blank after trimming,
and appending the trimmed tag-input text as a final tag exactly when it is
non-blank after trimming and not already in the tag list.  A failed save
returns only the error value, so no entry is produced. -/
theorem handleSave_spec (st : EditorState) (initialData : Option PromptEntry)
    (freshId now : String) :
    (jsTrim st.prompt = "" →
      ∃ errs, handleSave st initialData freshId now = Except.error errs ∧
        errs.promptMsg = some "Prompt is required.") ∧
    (jsTrim st.prompt ≠ "" → st.beforeImage = none → st.afterImage = none →
      handleSave st initialData freshId now = Except.error
        { promptMsg := none
          imageMsg := some "At least one image (Before or After) is required." }) ∧
    (jsTrim st.prompt ≠ "" → (st.beforeImage ≠ none ∨ st.afterImage ≠ none) →
      ∃ e, handleSave st initialData freshId now = Except.ok e ∧
        e.prompt = st.prompt ∧
        e.parameters = st.parameters.filter (fun p => !(jsTrim p.key == "")) ∧
        e.tags = (if jsTrim st.tagInput ≠ "" ∧ jsTrim st.tagInput ∉ st.tags
                  then st.tags ++ [jsTrim st.tagInput] else st.tags)) := by
  refine ⟨fun hp => ?_, fun hp hb ha => ?_, fun hp him => ?_⟩
  · unfold handleSave
    simp only [hp, beq_self_eq_true, if_pos, Option.isSome_some, Bool.true_or, if_true]
    exact ⟨_, rfl, rfl⟩
  · unfold handleSave
    have hp' : (jsTrim st.prompt == "") = false := by simpa using hp
    simp [hp', hb, ha]
  · unfold handleSave
    have hp' : (jsTrim st.prompt == "") = false := by simpa using hp
    have him' : (st.beforeImage.isNone && st.afterImage.isNone) = false := by
      cases hb : st.beforeImage <;> cases ha : st.afterImage <;> simp_all
    simp only [hp', him', if_neg, Bool.false_or, Option.isSome_none, Bool.or_self,
      Bool.false_eq_true, not_false_eq_true, reduceIte]
    refine ⟨_, rfl, rfl, rfl, ?_⟩
    by_cases h1 : jsTrim st.tagInput = ""
    · simp [h1]
    · by_cases h2 : st.tags.contains (jsTrim st.tagInput)
      · have h2' : jsTrim st.tagInput ∈ st.tags := by simpa using h2
        simp [h1, h2, h2']
      · have h2' : jsTrim st.tagInput ∉ st.tags := by simpa using h2
        simp [h1, h2, h2']

/-- Witness for C5: a blank prompt with an image errors on the prompt field;
a prompt with no image errors on the image field; a valid state saves,
dropping the blank-keyed parameter row and folding the pending tag input. -/
theorem handleSave_spec_witness :
    (∃ errs, handleSave { prompt := "  ", beforeImage := some "IMG" } none "f" "T" =
        Except.error errs ∧ errs.promptMsg = some "Prompt is required.") ∧
    handleSave { prompt := "p" } none "f" "T" = Except.error
      { promptMsg := none
        imageMsg := some "At least one image (Before or After) is required." } ∧
    (∃ e, handleSave
        { prompt := "p", beforeImage := some "IMG"
          parameters := [⟨"i1", " ", "7"⟩, ⟨"i2", "cfg", "9"⟩]
          tags := ["x"], tagInput := " y " } none "f" "T" = Except.ok e ∧
      e.prompt = "p" ∧
      e.parameters = [⟨"i2", "cfg", "9"⟩] ∧
      e.tags = ["x", "y"]) := by
  refine ⟨(handleSave_spec _ none "f" "T").1 (by decide),
    (handleSave_spec _ none "f" "T").2.1 (by decide) rfl rfl, ?_⟩
  obtain ⟨e, he, hprompt, hparams, htags⟩ :=
    (handleSave_spec
      { prompt := "p", beforeImage := some "IMG"
        parameters := [⟨"i1", " ", "7"⟩, ⟨"i2", "cfg", "9"⟩]
        tags := ["x"], tagInput := " y " } none "f" "T").2.2
      (by decide) (Or.inl (by decide))
  refine ⟨e, he, hprompt, ?_, ?_⟩
  · rw [hparams]; decide
  · rw [htags]; decide

/-- Inversion for a successful save: the produced entry is exactly the record
literal `handleSave` constructs. -/
theorem handleSave_ok_inv (st : EditorState) (initialData : Option PromptEntry)
    (freshId now : String) (e : PromptEntry)
    (hok : handleSave st initialData freshId now = Except.ok e) :
    e.id = jsOrElse (initialData.map (fun x => x.id)) freshId ∧
    e.createdAt = jsOrElse (initialData.map (fun x => x.createdAt)) now ∧
    e.isFavorite = none := by
  unfold handleSave at hok
  by_cases h1 : (jsTrim st.prompt == "") = true <;>
    by_cases h2 : (st.beforeImage.isNone && st.afterImage.isNone) = true <;>
      simp only [h1, h2, Bool.not_eq_true, if_true, if_false, Bool.false_eq_true,
        Option.isSome_some, Option.isSome_none, Bool.true_or, Bool.or_true,
        Bool.or_self, reduceIte] at hok
  · cases hok
  · cases hok
  · cases hok
  · obtain rfl := (Except.ok.inj hok).symm
    exact ⟨rfl, rfl, rfl⟩

/-- C6.  A successful edit-save reuses the edited entry's `id` and `createdAt`
unchanged (entries always carry the nonempty ids and ISO timestamps the data
model assigns at creation), and a successful create-save uses the freshly
generated id and the current timestamp — so saving an edit never changes the
stored `createdAt`. -/
theorem handleSave_identity_spec (st : EditorState) (freshId now : String) :
    (∀ d e, d.id ≠ "" → d.createdAt ≠ "" →
      handleSave st (some d) freshId now = Except.ok e →
      e.id = d.id ∧ e.createdAt = d.createdAt) ∧
    (∀ e, handleSave st none freshId now = Except.ok e →
      e.id = freshId ∧ e.createdAt = now) := by
  constructor
  · intro d e hid hdate hok
    obtain ⟨h1, h2, -⟩ := handleSave_ok_inv st (some d) freshId now e hok
    refine ⟨?_, ?_⟩
    · rw [h1]; simp [jsOrElse, hid]
    · rw [h2]; simp [jsOrElse, hdate]
  · intro e hok
    obtain ⟨h1, h2, -⟩ := handleSave_ok_inv st none freshId now e hok
    exact ⟨h1, h2⟩

/-- Witness for C6: editing the stored entry `sampleOld` keeps id `"a"` and
its original timestamp; creating mints the supplied fresh id and timestamp. -/
theorem handleSave_identity_spec_witness :
    (∃ e, handleSave { prompt := "p", beforeImage := some "IMG" } (some sampleOld) "f" "T"
        = Except.ok e ∧ e.id = sampleOld.id ∧ e.createdAt = sampleOld.createdAt) ∧
    (∃ e, handleSave { prompt := "p", beforeImage := some "IMG" } none "f" "T"
        = Except.ok e ∧ e.id = "f" ∧ e.createdAt = "T") := by
  constructor
  · refine ⟨_, rfl, ?_⟩
    exact (handleSave_identity_spec { prompt := "p", beforeImage := some "IMG" } "f" "T").1
      sampleOld _ (by decide) (by decide) rfl
  · refine ⟨_, rfl, ?_⟩
    exact (handleSave_identity_spec { prompt := "p", beforeImage := some "IMG" } "f" "T").2
      _ rfl

/-- C9.  The entry constructed by a successful save always has `isFavorite`
unset (the object literal in `handleSave` carries no `isFavorite` field), and
since the store's upsert replaces the matched slot wholesale, upserting such
an entry over a stored favorite leaves the slot with `isFavorite` unset —
editing a favorited entry clears its favorite flag. -/
theorem handleSave_clears_favorite (st : EditorState) (initialData : Option PromptEntry)
    (freshId now : String) :
    (∀ e, handleSave st initialData freshId now = Except.ok e → e.isFavorite = none) ∧
    (∀ e prev i, handleSave st initialData freshId now = Except.ok e →
      prev.findIdx? (fun p => p.id == e.id) = some i →
      ((handleSavePrompt e prev)[i]?).map PromptEntry.isFavorite = some none) := by
  have hfav : ∀ e, handleSave st initialData freshId now = Except.ok e →
      e.isFavorite = none := fun e hok =>
    (handleSave_ok_inv st initialData freshId now e hok).2.2
  refine ⟨hfav, fun e prev i hok hi => ?_⟩
  have hlt : i < prev.length := by
    obtain ⟨h, -⟩ := List.findIdx?_eq_some_iff_getElem.mp hi
    exact h
  unfold handleSavePrompt
  rw [hi, List.getElem?_set_self hlt, Option.map_some']
  rw [hfav e hok]

/-- Witness for C9: saving an edit of the favorited `sampleOld` and upserting
the result over it leaves position 0 of the store with no favorite flag. -/
theorem handleSave_clears_favorite_witness :
    ∃ e, handleSave { prompt := "p", beforeImage := some "IMG" } (some sampleOld) "f" "T"
        = Except.ok e ∧
      ((handleSavePrompt e [sampleOld])[0]?).map PromptEntry.isFavorite = some none := by
  refine ⟨_, rfl, ?_⟩
  exact (handleSave_clears_favorite { prompt := "p", beforeImage := some "IMG" }
    (some sampleOld) "f" "T").2 _ [sampleOld] 0 rfl (by decide)

/-! ## C7, C10: image reattachment -/

/-- Length of an index-aware map. -/
theorem length_mapWithIndex (f : Nat → α → β) :
    ∀ (start : Nat) (l : List α), (mapWithIndex f start l).length = l.length := by
  intro start l
  induction l generalizing start with
  | nil => rfl
  | cons a as ih => simp [mapWithIndex, ih]

/-- Lookup in an index-aware map. -/
theorem getElem?_mapWithIndex (f : Nat → α → β) :
    ∀ (start : Nat) (l : List α) (i : Nat),
      (mapWithIndex f start l)[i]? = (l[i]?).map (f (start + i)) := by
  intro start l
  induction l generalizing start with
  | nil => intro i; simp [mapWithIndex]
  | cons a as ih =>
    intro i
    cases i with
    | zero => simp [mapWithIndex]
    | succ j =>
      simp only [mapWithIndex, List.getElem?_cons_succ]
      rw [ih (start + 1) j]
      have harith : start + 1 + j = start + (j + 1) := by omega
      rw [harith]

/-- Unfolding `lastImage` over the head of the image map: the head only
matters when no later file matches. -/
theorem lastImage_cons (n : Nat) (tb : Bool) (fb : String × String)
    (rest : List (String × String)) :
    lastImage n tb (fb :: rest) =
      (lastImage n tb rest).or
        (if parseImageName fb.1 == some (n, tb) then some fb.2 else none) := by
  unfold lastImage
  rw [List.filter_cons]
  by_cases h : (parseImageName fb.1 == some (n, tb)) = true
  · rw [if_pos h, if_pos h, List.map_cons, List.getLast?_cons]
    cases hl : ((rest.filter (fun fb => parseImageName fb.1 == some (n, tb))).map
        (fun x => x.2)).getLast? with
    | none => rfl
    | some x => rfl
  · rw [if_neg h, if_neg h, Option.or_none]

/-- The pair accumulated by the `forEach` loop is the last matching before
and after file, falling back to the initial accumulator. -/
theorem foldl_matchStep (n : Nat) :
    ∀ (m : List (String × String)) (acc : Option String × Option String),
      (m.foldl (matchStep n) acc).1 = (lastImage n true m).or acc.1 ∧
      (m.foldl (matchStep n) acc).2 = (lastImage n false m).or acc.2 := by
  intro m
  induction m with
  | nil => intro acc; exact ⟨rfl, rfl⟩
  | cons fb rest ih =>
    intro acc
    have hstep1 : (matchStep n acc fb).1 =
        (if parseImageName fb.1 == some (n, true) then some fb.2 else none).or acc.1 := by
      unfold matchStep
      rcases hp : parseImageName fb.1 with - | ⟨k, tb⟩
      · rfl
      · by_cases hk : k = n
        · subst hk
          cases tb <;> simp [Option.or]
        · have hne : ((k, tb) == (n, true)) = false := by
            simp only [beq_eq_false_iff_ne, ne_eq, Prod.mk.injEq, not_and]
            intro hkn
            exact absurd hkn hk
          simp [hk, hne, Option.or]
    have hstep2 : (matchStep n acc fb).2 =
        (if parseImageName fb.1 == some (n, false) then some fb.2 else none).or acc.2 := by
      unfold matchStep
      rcases hp : parseImageName fb.1 with - | ⟨k, tb⟩
      · rfl
      · by_cases hk : k = n
        · subst hk
          cases tb <;> simp [Option.or]
        · have hne : ((k, tb) == (n, false)) = false := by
            simp only [beq_eq_false_iff_ne, ne_eq, Prod.mk.injEq, not_and]
            intro hkn
            exact absurd hkn hk
          simp [hk, hne, Option.or]
    rw [List.foldl_cons]
    refine ⟨?_, ?_⟩
    · rw [(ih (matchStep n acc fb)).1, hstep1, lastImage_cons, Option.or_assoc]
    · rw [(ih (matchStep n acc fb)).2, hstep2, lastImage_cons, Option.or_assoc]

/-- The `forEach` loop attaches exactly the last matching file of each kind,
keeping the prompt's own image as fallback; all other fields are copied. -/
theorem matchOne_eq (imageMap : List (String × String)) (index : Nat) (p : PromptEntry) :
    matchOne imageMap index p =
      { p with beforeImage := (lastImage (index + 1) true imageMap).or p.beforeImage
               afterImage := (lastImage (index + 1) false imageMap).or p.afterImage } := by
  show { p with
      beforeImage := (imageMap.foldl (matchStep (index + 1)) (p.beforeImage, p.afterImage)).1
      afterImage := (imageMap.foldl (matchStep (index + 1)) (p.beforeImage, p.afterImage)).2 } = _
  rw [(foldl_matchStep (index + 1) imageMap (p.beforeImage, p.afterImage)).1,
      (foldl_matchStep (index + 1) imageMap (p.beforeImage, p.afterImage)).2]

/-- C7.  Reattachment is positional and case-insensitive: the entry at 0-based
index `i` (1-based position `i+1`) receives, as its before-image, the data of
the last file whose name matches `{i+1}_Before.{ext}` (case-insensitively),
keeping its old before-image when no such file exists, and independently the
same for `{i+1}_After.{ext}`; the list keeps its length and order. -/
theorem matchImagesToPrompts_spec (prompts : List PromptEntry)
    (imageMap : List (String × String)) :
    (matchImagesToPrompts prompts imageMap).length = prompts.length ∧
    ∀ (i : Nat) (p : PromptEntry), prompts[i]? = some p →
      (matchImagesToPrompts prompts imageMap)[i]? = some
        { p with beforeImage := (lastImage (i + 1) true imageMap).or p.beforeImage
                 afterImage := (lastImage (i + 1) false imageMap).or p.afterImage } := by
  refine ⟨length_mapWithIndex _ 0 prompts, fun i p hp => ?_⟩
  unfold matchImagesToPrompts
  rw [getElem?_mapWithIndex, hp, Option.map_some', Nat.zero_add, matchOne_eq]

/-- Witness for C7: with files `1_Before.png` and `1_after.JPG` in the map,
entry 1 gets both new images while entry 2 keeps its images untouched, and a
lone `2_Before.png` updates only the before-image of entry 2. -/
theorem matchImagesToPrompts_spec_witness :
    (matchImagesToPrompts [sampleOld, sampleOther]
        [("1_Before.png", "NB"), ("1_after.JPG", "NA")]).length = 2 ∧
    (matchImagesToPrompts [sampleOld, sampleOther]
        [("1_Before.png", "NB"), ("1_after.JPG", "NA")])[0]? =
      some { sampleOld with beforeImage := some "NB", afterImage := some "NA" } ∧
    (matchImagesToPrompts [sampleOld, sampleOther]
        [("1_Before.png", "NB"), ("1_after.JPG", "NA")])[1]? = some sampleOther ∧
    (matchImagesToPrompts [sampleOld, sampleOther] [("2_Before.png", "NB")])[1]? =
      some { sampleOther with beforeImage := some "NB" } := by
  have h := matchImagesToPrompts_spec [sampleOld, sampleOther]
    [("1_Before.png", "NB"), ("1_after.JPG", "NA")]
  have h2 := matchImagesToPrompts_spec [sampleOld, sampleOther] [("2_Before.png", "NB")]
  refine ⟨h.1, ?_, ?_, ?_⟩
  · rw [h.2 0 sampleOld (by decide)]
    decide
  · rw [h.2 1 sampleOther (by decide)]
    decide
  · rw [h2.2 1 sampleOther (by decide)]
    decide

/-- C10.  Reattachment is a frame operation: it preserves length and order,
and every output entry agrees with its input entry on `id`, `prompt`, `model`,
`parameters`, `tags`, `createdAt` and `isFavorite`; only the two image fields
can change. -/
theorem matchImagesToPrompts_frame (prompts : List PromptEntry)
    (imageMap : List (String × String)) :
    (matchImagesToPrompts prompts imageMap).length = prompts.length ∧
    ∀ (i : Nat) (p : PromptEntry), prompts[i]? = some p →
      ∃ q, (matchImagesToPrompts prompts imageMap)[i]? = some q ∧
        q.id = p.id ∧ q.prompt = p.prompt ∧ q.model = p.model ∧
        q.parameters = p.parameters ∧ q.tags = p.tags ∧
        q.createdAt = p.createdAt ∧ q.isFavorite = p.isFavorite := by
  refine ⟨length_mapWithIndex _ 0 prompts, fun i p hp => ?_⟩
  unfold matchImagesToPrompts
  rw [getElem?_mapWithIndex, hp, Option.map_some', Nat.zero_add, matchOne_eq]
  exact ⟨_, rfl, rfl, rfl, rfl, rfl, rfl, rfl, rfl⟩

/-- Witness for C10: reattaching over a concrete two-entry list preserves all
non-image fields of entry 0. -/
theorem matchImagesToPrompts_frame_witness :
    ∃ q, (matchImagesToPrompts [sampleOld, sampleOther]
        [("1_Before.png", "NB")])[0]? = some q ∧
      q.id = sampleOld.id ∧ q.prompt = sampleOld.prompt ∧ q.model = sampleOld.model ∧
      q.parameters = sampleOld.parameters ∧ q.tags = sampleOld.tags ∧
      q.createdAt = sampleOld.createdAt ∧ q.isFavorite = sampleOld.isFavorite :=
  (matchImagesToPrompts_frame [sampleOld, sampleOther]
    [("1_Before.png", "NB")]).2 0 sampleOld (by decide)

/-! ## C4: filtering and sorting -/

/-- The empty pattern occurs in every string. -/
theorem hasSubList_nil (l : List Char) : hasSubList [] l = true := by
  cases l <;> rfl

/-- JavaScript `s.includes("")` is always true. -/
theorem jsIncludes_right_empty (s : String) : jsIncludes s "" = true :=
  hasSubList_nil s.toList

/-- A string is empty iff its character list is. -/
theorem toList_eq_nil_iff (s : String) : s.toList = [] ↔ s = "" := by
  constructor
  · intro h
    exact String.ext h
  · intro h
    subst h
    rfl

/-- Lowercasing preserves emptiness. -/
theorem jsToLower_eq_empty_iff (s : String) : jsToLower s = "" ↔ s = "" := by
  rw [← toList_eq_nil_iff (jsToLower s), ← toList_eq_nil_iff s]
  show s.toList.map Char.toLower = [] ↔ s.toList = []
  exact List.map_eq_nil_iff

/-- Characterisation of the text filter, as the spec words it: the empty
search term matches every entry, otherwise the lowercased term must occur in
the lowercased prompt, the lowercased model when present, or a lowercased tag.
The truthiness test `p.model && ...` in the code skips an empty-string model,
but that can only drop a match when the term itself is empty, in which case
the prompt clause already matched. -/
theorem matchesSearch_iff (term : String) (p : PromptEntry) :
    matchesSearch term p = true ↔
      (term = "" ∨
        jsIncludes (jsToLower p.prompt) (jsToLower term) = true ∨
        (∃ m, p.model = some m ∧ jsIncludes (jsToLower m) (jsToLower term) = true) ∨
        ∃ t, t ∈ p.tags ∧ jsIncludes (jsToLower t) (jsToLower term) = true) := by
  unfold matchesSearch
  simp only [Bool.or_eq_true, List.any_eq_true]
  constructor
  · rintro ((hp | hm) | ⟨t, ht1, ht2⟩)
    · exact Or.inr (Or.inl hp)
    · rcases hmod : p.model with - | m
      · rw [hmod] at hm
        cases hm
      · rw [hmod] at hm
        simp only [Bool.and_eq_true] at hm
        exact Or.inr (Or.inr (Or.inl ⟨m, rfl, hm.2⟩))
    · exact Or.inr (Or.inr (Or.inr ⟨t, ht1, ht2⟩))
  · have hempty : term = "" →
        jsIncludes (jsToLower p.prompt) (jsToLower term) = true := by
      intro h
      subst h
      exact jsIncludes_right_empty _
    rintro (hterm | hp | ⟨m, hm1, hm2⟩ | ⟨t, ht1, ht2⟩)
    · exact Or.inl (Or.inl (hempty hterm))
    · exact Or.inl (Or.inl hp)
    · by_cases hme : m = ""
      · subst hme
        have hterm : term = "" := by
          have h' : (jsToLower term).toList.isEmpty = true := hm2
          rw [List.isEmpty_iff, toList_eq_nil_iff] at h'
          exact (jsToLower_eq_empty_iff term).mp h'
        exact Or.inl (Or.inl (hempty hterm))
      · refine Or.inl (Or.inr ?_)
        rw [hm1]
        simp [hme, hm2]
    · exact Or.inr ⟨t, ht1, ht2⟩

/-- Characterisation of the tag filter: OR semantics over the selected set. -/
theorem matchesTags_iff (sel : List String) (p : PromptEntry) :
    matchesTags sel p = true ↔ (sel = [] ∨ ∃ t, t ∈ p.tags ∧ t ∈ sel) := by
  unfold matchesTags
  simp [List.isEmpty_iff, List.any_eq_true]

/-- The default-false favorite flag reads true exactly on `some true`. -/
theorem isFavorite_getD_iff (p : PromptEntry) :
    p.isFavorite.getD false = true ↔ p.isFavorite = some true := by
  cases p.isFavorite <;> simp

/-- Characterisation of the whole filter predicate. -/
theorem entryPasses_iff (v : View) (term : String) (sel : List String) (p : PromptEntry) :
    entryPasses v term sel p = true ↔
      ((v = View.favorites → p.isFavorite = some true) ∧
       (term = "" ∨
         jsIncludes (jsToLower p.prompt) (jsToLower term) = true ∨
         (∃ m, p.model = some m ∧ jsIncludes (jsToLower m) (jsToLower term) = true) ∨
         ∃ t, t ∈ p.tags ∧ jsIncludes (jsToLower t) (jsToLower term) = true) ∧
       (sel = [] ∨ ∃ t, t ∈ p.tags ∧ t ∈ sel)) := by
  unfold entryPasses
  by_cases hv : (v == View.favorites && !(p.isFavorite.getD false)) = true
  · rw [if_pos hv]
    simp only [Bool.and_eq_true, beq_iff_eq, Bool.not_eq_true'] at hv
    constructor
    · intro h
      cases h
    · rintro ⟨hfav, -, -⟩
      have := hfav hv.1
      rw [this] at hv
      cases hv.2
  · rw [if_neg hv]
    simp only [Bool.and_eq_true, beq_iff_eq, Bool.not_eq_true', not_and] at hv
    have hfav : v = View.favorites → p.isFavorite = some true := by
      intro h
      have := hv h
      rw [Bool.not_eq_false] at this
      exact (isFavorite_getD_iff p).mp this
    rw [Bool.and_eq_true, matchesSearch_iff, matchesTags_iff]
    constructor
    · rintro ⟨h1, h2⟩
      exact ⟨hfav, h1, h2⟩
    · rintro ⟨-, h1, h2⟩
      exact ⟨h1, h2⟩

/-- C4.  Membership in the filtered result is exactly: the entry is stored,
passes the view restriction (`favorites` keeps only favorited entries), the
case-insensitive text filter (empty term matches everything; otherwise the
term must occur in the prompt, the model when present, or a tag), and the
OR-semantics tag filter (empty selection passes, else some entry tag is
selected).  The result is sorted by parsed `createdAt` descending, and the
sort is stable: entries with equal timestamps keep the relative order they
had after filtering. -/
theorem filteredPrompts_spec (time : String → Int) (v : View) (term : String)
    (sel : List String) (ps : List PromptEntry) :
    (∀ e, e ∈ filteredPrompts time v term sel ps ↔
      e ∈ ps ∧
      (v = View.favorites → e.isFavorite = some true) ∧
      (term = "" ∨
        jsIncludes (jsToLower e.prompt) (jsToLower term) = true ∨
        (∃ m, e.model = some m ∧ jsIncludes (jsToLower m) (jsToLower term) = true) ∨
        ∃ t, t ∈ e.tags ∧ jsIncludes (jsToLower t) (jsToLower term) = true) ∧
      (sel = [] ∨ ∃ t, t ∈ e.tags ∧ t ∈ sel)) ∧
    List.Pairwise (fun a b => time b.createdAt ≤ time a.createdAt)
      (filteredPrompts time v term sel ps) ∧
    (∀ z : Int, (filteredPrompts time v term sel ps).filter
        (fun e => time e.createdAt == z) =
      (ps.filter (entryPasses v term sel)).filter (fun e => time e.createdAt == z)) := by
  have htrans : ∀ a b c : PromptEntry,
      decide (time b.createdAt ≤ time a.createdAt) = true →
      decide (time c.createdAt ≤ time b.createdAt) = true →
      decide (time c.createdAt ≤ time a.createdAt) = true := by
    intro a b c h1 h2
    simp only [decide_eq_true_eq] at h1 h2 ⊢
    omega
  have htotal : ∀ a b : PromptEntry,
      (decide (time b.createdAt ≤ time a.createdAt) ||
        decide (time a.createdAt ≤ time b.createdAt)) = true := by
    intro a b
    simp only [Bool.or_eq_true, decide_eq_true_eq]
    omega
  refine ⟨?_, ?_, ?_⟩
  · intro e
    unfold filteredPrompts
    rw [List.mem_mergeSort, List.mem_filter, entryPasses_iff]
  · unfold filteredPrompts
    have h := List.sorted_mergeSort htrans htotal
      (ps.filter (entryPasses v term sel))
    exact h.imp (fun hab => of_decide_eq_true hab)
  · intro z
    unfold filteredPrompts
    set q : PromptEntry → Bool := fun e => time e.createdAt == z with hq
    set l : List PromptEntry := ps.filter (entryPasses v term sel) with hl
    have hpair : List.Pairwise
        (fun a b => decide (time b.createdAt ≤ time a.createdAt) = true) (l.filter q) := by
      apply List.pairwise_of_forall_mem_list
      intro a ha b hb
      have ha' : time a.createdAt = z := by
        have := (List.mem_filter.mp ha).2
        simpa [hq] using this
      have hb' : time b.createdAt = z := by
        have := (List.mem_filter.mp hb).2
        simpa [hq] using this
      simp [ha', hb']
    have hsub : List.Sublist (l.filter q)
        (l.mergeSort (fun a b => time b.createdAt ≤ time a.createdAt)) :=
      List.sublist_mergeSort htrans htotal hpair (List.filter_sublist l)
    have hsame : (l.filter q).filter q = l.filter q :=
      List.filter_eq_self.mpr (fun a ha => (List.mem_filter.mp ha).2)
    have hsub2 : List.Sublist (l.filter q)
        ((l.mergeSort (fun a b => time b.createdAt ≤ time a.createdAt)).filter q) := by
      have := hsub.filter q
      rwa [hsame] at this
    have hlen : ((l.mergeSort
        (fun a b => time b.createdAt ≤ time a.createdAt)).filter q).length =
        (l.filter q).length :=
      ((List.mergeSort_perm l _).filter q).length_eq
    exact (hsub2.eq_of_length hlen.symm).symm

/-- Witness for C4: a favorited entry is in the all-view result with empty
search and no selected tags; a non-favorited entry is excluded from the
favorites view. -/
theorem filteredPrompts_spec_witness :
    sampleOld ∈ filteredPrompts (fun _ => 0) View.all "" [] [sampleOld] ∧
    sampleNew ∉ filteredPrompts (fun _ => 0) View.favorites "" [] [sampleNew] := by
  constructor
  · exact ((filteredPrompts_spec (fun _ => 0) View.all "" [] [sampleOld]).1 sampleOld).mpr
      ⟨List.mem_singleton.mpr rfl, fun h => absurd h (by decide), Or.inl rfl, Or.inl rfl⟩
  · intro hmem
    have h := ((filteredPrompts_spec (fun _ => 0) View.favorites "" []
      [sampleNew]).1 sampleNew).mp hmem
    have := h.2.1 rfl
    simp [sampleNew] at this

/-! ## C1: spreadsheet round trip -/

/-- Splitting never returns an empty list of pieces. -/
theorem splitOnChar_ne_nil (sep : Char) (l : List Char) : splitOnChar sep l ≠ [] := by
  cases l with
  | nil => simp [splitOnChar]
  | cons c rest =>
    unfold splitOnChar
    by_cases h : c = sep
    · simp [h]
    · rw [if_neg h]
      cases splitOnChar sep rest <;> simp

/-- Splitting a separator-free list yields that single piece. -/
theorem splitOnChar_of_not_mem (sep : Char) :
    ∀ (l : List Char), ¬ sep ∈ l → splitOnChar sep l = [l] := by
  intro l
  induction l with
  | nil => intro h; rfl
  | cons c rest ih =>
    intro h
    have hc : ¬ c = sep := by
      intro hc
      exact h (hc ▸ List.mem_cons_self c rest)
    have hrest : ¬ sep ∈ rest := fun hm => h (List.mem_cons_of_mem c hm)
    unfold splitOnChar
    rw [if_neg hc, ih hrest]

/-- Splitting at the first separator: a separator-free prefix becomes the
first piece. -/
theorem splitOnChar_append (sep : Char) :
    ∀ (a b : List Char), ¬ sep ∈ a →
      splitOnChar sep (a ++ sep :: b) = a :: splitOnChar sep b := by
  intro a
  induction a with
  | nil =>
    intro b h
    show splitOnChar sep (sep :: b) = [] :: splitOnChar sep b
    conv_lhs => rw [splitOnChar]
    rw [if_pos rfl]
  | cons c rest ih =>
    intro b h
    have hc : ¬ c = sep := by
      intro hc
      exact h (hc ▸ List.mem_cons_self c rest)
    have hrest : ¬ sep ∈ rest := fun hm => h (List.mem_cons_of_mem c hm)
    show splitOnChar sep (c :: (rest ++ sep :: b)) = (c :: rest) :: splitOnChar sep b
    conv_lhs => rw [splitOnChar]
    rw [if_neg hc, ih b hrest]

/-- Leading whitespace is dropped by `trim`. -/
theorem trimList_cons_of_whitespace (c : Char) (l : List Char)
    (h : isJsWhitespace c = true) : trimList (c :: l) = trimList l := by
  unfold trimList
  rw [List.dropWhile_cons_of_pos h]

/-- Nonempty strings stay nonempty under appending. -/
theorem append_ne_empty_of_left (s t : String) (h : s ≠ "") : s ++ t ≠ "" := by
  intro hc
  apply h
  have h' : s.toList ++ t.toList = [] := congrArg String.toList hc
  obtain ⟨h1, -⟩ := List.append_eq_nil.mp h'
  exact (toList_eq_nil_iff s).mp h1

/-- Joining a nonempty list of nonempty strings is nonempty. -/
theorem jsJoin_ne_empty (sep : String) :
    ∀ (ts : List String), ts ≠ [] → (∀ t ∈ ts, t ≠ "") → jsJoin sep ts ≠ "" := by
  intro ts
  cases ts with
  | nil => intro h; exact absurd rfl h
  | cons t rest =>
    intro hne h
    cases rest with
    | nil => exact h t (List.mem_cons_self t [])
    | cons y r =>
      show t ++ sep ++ jsJoin sep (y :: r) ≠ ""
      exact append_ne_empty_of_left _ _
        (append_ne_empty_of_left _ _ (h t (List.mem_cons_self t _)))

/-- The tags-cell parser of `importFromExcel` (split on commas, trim, drop
empties), working over the exported cell's character list. -/
def splitTrimFilter (l : List Char) : List String :=
  ((splitOnChar ',' l).map (fun cs => String.mk (trimList cs))).filter
    (fun t => !(t == ""))

/-- The string-level tags parser computes `splitTrimFilter`. -/
theorem tagsParse_eq (s : String) :
    ((jsSplit ',' s).map jsTrim).filter (fun t => !(t == "")) =
      splitTrimFilter s.toList := by
  unfold jsSplit splitTrimFilter
  rw [List.map_map]
  rfl

/-- A leading space in the cell is absorbed by the per-piece trim. -/
theorem splitTrimFilter_cons_space (l : List Char) :
    splitTrimFilter (' ' :: l) = splitTrimFilter l := by
  obtain ⟨h, t, hht⟩ : ∃ h t, splitOnChar ',' l = h :: t := by
    cases hs : splitOnChar ',' l with
    | nil => exact absurd hs (splitOnChar_ne_nil ',' l)
    | cons h t => exact ⟨h, t, rfl⟩
  have hsplit : splitOnChar ',' (' ' :: l) = (' ' :: h) :: t := by
    conv_lhs => rw [splitOnChar]
    rw [if_neg (by decide), hht]
  unfold splitTrimFilter
  rw [hsplit, hht, List.map_cons, List.map_cons,
    trimList_cons_of_whitespace ' ' h (by decide)]

/-- A well-behaved leading tag followed by a comma is recovered as the first
parsed tag. -/
theorem splitTrimFilter_append (t : String) (u : List Char)
    (h1 : t ≠ "") (h2 : jsTrim t = t) (h3 : ¬ ',' ∈ t.toList) :
    splitTrimFilter (t.toList ++ ',' :: u) = t :: splitTrimFilter u := by
  unfold splitTrimFilter
  rw [splitOnChar_append ',' t.toList u h3, List.map_cons, List.filter_cons]
  have hmk : String.mk (trimList t.toList) = t := h2
  rw [hmk]
  have hne : (!(t == "")) = true := by simpa using h1
  rw [if_pos hne]

/-- A well-behaved tag standing alone in the cell is recovered exactly. -/
theorem splitTrimFilter_single (t : String)
    (h1 : t ≠ "") (h2 : jsTrim t = t) (h3 : ¬ ',' ∈ t.toList) :
    splitTrimFilter t.toList = [t] := by
  unfold splitTrimFilter
  rw [splitOnChar_of_not_mem ',' t.toList h3, List.map_cons, List.map_nil,
    List.filter_cons]
  have hmk : String.mk (trimList t.toList) = t := h2
  rw [hmk]
  have hne : (!(t == "")) = true := by simpa using h1
  rw [if_pos hne]
  rfl

/-- Parsing the joined tags cell recovers the tag list, provided every tag is
nonempty, trim-stable and comma-free. -/
theorem splitTrimFilter_join :
    ∀ (ts : List String), ts ≠ [] →
      (∀ t ∈ ts, t ≠ "" ∧ jsTrim t = t ∧ ¬ ',' ∈ t.toList) →
      splitTrimFilter ((jsJoin ", " ts).toList) = ts := by
  intro ts
  induction ts with
  | nil => intro h; exact absurd rfl h
  | cons t rest ih =>
    intro hne h
    obtain ⟨h1, h2, h3⟩ := h t (List.mem_cons_self t rest)
    cases rest with
    | nil => exact splitTrimFilter_single t h1 h2 h3
    | cons y r =>
      have hjoin : (jsJoin ", " (t :: y :: r)).toList
          = t.toList ++ ',' :: ' ' :: (jsJoin ", " (y :: r)).toList := by
        show (t.toList ++ [',', ' ']) ++ (jsJoin ", " (y :: r)).toList = _
        rw [List.append_assoc]
        rfl
      rw [hjoin, splitTrimFilter_append t _ h1 h2 h3, splitTrimFilter_cons_space]
      rw [ih (by simp) (fun x hx => h x (List.mem_cons_of_mem t hx))]

/-- The tags column of the spreadsheet round-trips exactly under the
well-behavedness conditions. -/
theorem tags_roundTrip (ts : List String)
    (h : ∀ t ∈ ts, t ≠ "" ∧ jsTrim t = t ∧ ¬ ',' ∈ t.toList) :
    (if jsJoin ", " ts == "" then []
     else ((jsSplit ',' (jsJoin ", " ts)).map jsTrim).filter (fun t => !(t == ""))) = ts := by
  cases hts : ts with
  | nil => rfl
  | cons t rest =>
    have hne : jsJoin ", " (t :: rest) ≠ "" :=
      jsJoin_ne_empty ", " (t :: rest) (by simp)
        (fun x hx => ((hts ▸ h) x hx).1)
    rw [if_neg (by simpa using hne), tagsParse_eq]
    exact splitTrimFilter_join (t :: rest) (by simp) (hts ▸ h)

/-- The per-piece `key:value` parser of `importFromExcel`, over the piece's
character list: split on the first colons, trim both parts. -/
def kvOfList (l : List Char) : String × String :=
  let parts := (splitOnChar ':' l).map (fun cs => String.mk (trimList cs))
  (parts.headD "", (parts.drop 1).headD "")

/-- A leading space in a piece is absorbed by the trims inside `kvOfList`. -/
theorem kvOfList_cons_space (l : List Char) :
    kvOfList (' ' :: l) = kvOfList l := by
  obtain ⟨h, t, hht⟩ : ∃ h t, splitOnChar ':' l = h :: t := by
    cases hs : splitOnChar ':' l with
    | nil => exact absurd hs (splitOnChar_ne_nil ':' l)
    | cons h t => exact ⟨h, t, rfl⟩
  have hsplit : splitOnChar ':' (' ' :: l) = (' ' :: h) :: t := by
    conv_lhs => rw [splitOnChar]
    rw [if_neg (by decide), hht]
  unfold kvOfList
  rw [hsplit, hht, List.map_cons, List.map_cons,
    trimList_cons_of_whitespace ' ' h (by decide)]

/-- The exported `key: value` format parses back to the pair, for trim-stable
colon-free parts. -/
theorem kvOfList_format (k v : String)
    (hk2 : jsTrim k = k) (hk3 : ¬ ':' ∈ k.toList)
    (hv2 : jsTrim v = v) (hv3 : ¬ ':' ∈ v.toList) :
    kvOfList (k.toList ++ ':' :: ' ' :: v.toList) = (k, v) := by
  unfold kvOfList
  rw [splitOnChar_append ':' k.toList _ hk3]
  have hinner : splitOnChar ':' (' ' :: v.toList) = [' ' :: v.toList] :=
    splitOnChar_of_not_mem ':' _ (by
      intro hc
      rcases List.mem_cons.mp hc with h | h
      · cases h
      · exact hv3 h)
  rw [hinner, List.map_cons, List.map_cons, List.map_nil,
    trimList_cons_of_whitespace ' ' v.toList (by decide)]
  have hmk : String.mk (trimList k.toList) = k := hk2
  have hmv : String.mk (trimList v.toList) = v := hv2
  rw [hmk, hmv]
  rfl

/-- The parameters-cell parser of `importFromExcel`, at the level of pairs:
split on semicolons, parse each piece, keep pieces with nonempty key and
value. -/
def paramKVs (l : List Char) : List (String × String) :=
  ((splitOnChar ';' l).map (fun cs => kvOfList cs)).filter
    (fun kv => !(kv.1 == "") && !(kv.2 == ""))

/-- A leading space before a piece does not change the parsed pairs. -/
theorem paramKVs_cons_space (l : List Char) :
    paramKVs (' ' :: l) = paramKVs l := by
  obtain ⟨h, t, hht⟩ : ∃ h t, splitOnChar ';' l = h :: t := by
    cases hs : splitOnChar ';' l with
    | nil => exact absurd hs (splitOnChar_ne_nil ';' l)
    | cons h t => exact ⟨h, t, rfl⟩
  have hsplit : splitOnChar ';' (' ' :: l) = (' ' :: h) :: t := by
    conv_lhs => rw [splitOnChar]
    rw [if_neg (by decide), hht]
  unfold paramKVs
  rw [hsplit, hht, List.map_cons, List.map_cons, kvOfList_cons_space]

/-- Conditions on a parameter under which its exported `key: value` cell
fragment survives the import parser unchanged. -/
def safeParam (q : PromptParameter) : Prop :=
  q.key ≠ "" ∧ jsTrim q.key = q.key ∧ ¬ ':' ∈ q.key.toList ∧ ¬ ';' ∈ q.key.toList ∧
  q.value ≠ "" ∧ jsTrim q.value = q.value ∧ ¬ ':' ∈ q.value.toList ∧ ¬ ';' ∈ q.value.toList

instance (q : PromptParameter) : Decidable (safeParam q) := by
  unfold safeParam
  infer_instance

/-- The character list of one exported parameter fragment. -/
theorem format_toList (q : PromptParameter) :
    (q.key ++ ": " ++ q.value).toList = q.key.toList ++ ':' :: ' ' :: q.value.toList := by
  show (q.key.toList ++ [':', ' ']) ++ q.value.toList = _
  rw [List.append_assoc]
  rfl

/-- A well-behaved leading parameter fragment followed by a semicolon is
recovered as the first parsed pair. -/
theorem paramKVs_append (q : PromptParameter) (u : List Char) (hq : safeParam q) :
    paramKVs ((q.key ++ ": " ++ q.value).toList ++ ';' :: u) =
      (q.key, q.value) :: paramKVs u := by
  obtain ⟨h1, h2, h3, h4, h5, h6, h7, h8⟩ := hq
  have hfree : ¬ ';' ∈ (q.key ++ ": " ++ q.value).toList := by
    rw [format_toList]
    intro hc
    rcases List.mem_append.mp hc with h | h
    · exact h4 h
    · rcases List.mem_cons.mp h with h | h
      · cases h
      · rcases List.mem_cons.mp h with h | h
        · cases h
        · exact h8 h
  unfold paramKVs
  rw [splitOnChar_append ';' _ u hfree, List.map_cons, format_toList,
    kvOfList_format q.key q.value h2 h3 h6 h7, List.filter_cons]
  have hcond : (!((q.key, q.value).1 == "") && !((q.key, q.value).2 == "")) = true := by
    simp [h1, h5]
  rw [if_pos hcond]

/-- A well-behaved parameter fragment standing alone is recovered exactly. -/
theorem paramKVs_single (q : PromptParameter) (hq : safeParam q) :
    paramKVs ((q.key ++ ": " ++ q.value).toList) = [(q.key, q.value)] := by
  obtain ⟨h1, h2, h3, h4, h5, h6, h7, h8⟩ := hq
  have hfree : ¬ ';' ∈ (q.key ++ ": " ++ q.value).toList := by
    rw [format_toList]
    intro hc
    rcases List.mem_append.mp hc with h | h
    · exact h4 h
    · rcases List.mem_cons.mp h with h | h
      · cases h
      · rcases List.mem_cons.mp h with h | h
        · cases h
        · exact h8 h
  unfold paramKVs
  rw [splitOnChar_of_not_mem ';' _ hfree, List.map_cons, List.map_nil, format_toList,
    kvOfList_format q.key q.value h2 h3 h6 h7, List.filter_cons]
  have hcond : (!((q.key, q.value).1 == "") && !((q.key, q.value).2 == "")) = true := by
    simp [h1, h5]
  rw [if_pos hcond]
  rfl

/-- Parsing the joined parameters cell recovers the key/value pairs in order,
provided every parameter is well-behaved. -/
theorem paramKVs_join :
    ∀ (qs : List PromptParameter), qs ≠ [] → (∀ q ∈ qs, safeParam q) →
      paramKVs ((jsJoin "; " (qs.map (fun q => q.key ++ ": " ++ q.value))).toList)
        = qs.map (fun q => (q.key, q.value)) := by
  intro qs
  induction qs with
  | nil => intro h; exact absurd rfl h
  | cons q rest ih =>
    intro hne h
    have hq := h q (List.mem_cons_self q rest)
    cases rest with
    | nil => exact paramKVs_single q hq
    | cons y r =>
      have hjoin : (jsJoin "; " ((q :: y :: r).map (fun q => q.key ++ ": " ++ q.value))).toList
          = (q.key ++ ": " ++ q.value).toList ++
            ';' :: ' ' :: (jsJoin "; " ((y :: r).map (fun q => q.key ++ ": " ++ q.value))).toList := by
        show ((q.key ++ ": " ++ q.value).toList ++ [';', ' ']) ++ _ = _
        rw [List.append_assoc]
        rfl
      rw [hjoin, paramKVs_append q _ hq, paramKVs_cons_space]
      rw [ih (by simp) (fun x hx => h x (List.mem_cons_of_mem q hx))]
      rfl

/-- The key/value pair built by `importParam` is `kvOfList` of the piece. -/
theorem importParam_pair (uuidP : Nat → String) (i : Nat) (s : String) :
    ((importParam uuidP i s).key, (importParam uuidP i s).value) = kvOfList s.toList := by
  unfold importParam kvOfList jsSplit
  rw [List.map_map]
  rfl

/-- The pairs surviving the import filter are the parsed pairs of the pieces,
independently of the fresh parameter ids. -/
theorem importParams_eq (uuidP : Nat → String) :
    ∀ (start : Nat) (pieces : List String),
      ((mapWithIndex (importParam uuidP) start pieces).filter
        (fun p => !(p.key == "") && !(p.value == ""))).map (fun q => (q.key, q.value))
      = (pieces.map (fun s => kvOfList s.toList)).filter
          (fun kv => !(kv.1 == "") && !(kv.2 == "")) := by
  intro start pieces
  induction pieces generalizing start with
  | nil => rfl
  | cons s rest ih =>
    have hkey : (importParam uuidP start s).key = (kvOfList s.toList).1 :=
      congrArg Prod.fst (importParam_pair uuidP start s)
    have hval : (importParam uuidP start s).value = (kvOfList s.toList).2 :=
      congrArg Prod.snd (importParam_pair uuidP start s)
    simp only [mapWithIndex, List.map_cons, List.filter_cons, hkey, hval]
    by_cases hc : (!((kvOfList s.toList).1 == "") && !((kvOfList s.toList).2 == "")) = true
    · rw [if_pos hc, if_pos hc, List.map_cons, ih]
      congr 1
      exact importParam_pair uuidP start s
    · rw [if_neg hc, if_neg hc, ih]

/-- Conditions on an entry under which the spreadsheet row round-trips: every
tag nonempty, trim-stable and comma-free; every parameter well-behaved; the
model not the empty string; the favorite flag explicitly set. -/
def roundTrippable (e : PromptEntry) : Prop :=
  (∀ t ∈ e.tags, t ≠ "" ∧ jsTrim t = t ∧ ¬ ',' ∈ t.toList) ∧
  (∀ q ∈ e.parameters, safeParam q) ∧
  e.model ≠ some "" ∧ e.isFavorite.isSome = true

instance (e : PromptEntry) : Decidable (roundTrippable e) := by
  unfold roundTrippable
  infer_instance

/-- Row-level round trip: importing the exported row of a well-behaved entry
recovers `prompt`, `model`, `tags`, the parameter key/value pairs in order and
`isFavorite`, and leaves both images unset. -/
theorem importRow_exportRow (toLocale parseDate : String → String) (uuidP : Nat → String)
    (uuidE now : String) (n : Nat) (e : PromptEntry) (he : roundTrippable e) :
    ∀ e', e' = importRow uuidP uuidE parseDate now (exportRow toLocale n e) →
      e'.prompt = e.prompt ∧ e'.model = e.model ∧ e'.tags = e.tags ∧
      e'.parameters.map (fun q => (q.key, q.value)) =
        e.parameters.map (fun q => (q.key, q.value)) ∧
      e'.isFavorite = e.isFavorite ∧ e'.beforeImage = none ∧ e'.afterImage = none := by
  obtain ⟨htags, hparams, hmodel, hfav⟩ := he
  intro e' he'
  subst he'
  refine ⟨rfl, ?_, ?_, ?_, ?_, rfl, rfl⟩
  · show (if (e.model.getD "") == "" then none else some (e.model.getD "")) = e.model
    cases hm : e.model with
    | none => rfl
    | some m =>
      have hm' : m ≠ "" := by
        intro hc
        exact hmodel (by rw [hm, hc])
      have hbeq : (m == "") = false := by simpa using hm'
      show (if (m == "") = true then none else some m) = some m
      rw [hbeq]
      rfl
  · show (if jsJoin ", " e.tags == "" then []
      else ((jsSplit ',' (jsJoin ", " e.tags)).map jsTrim).filter (fun t => !(t == ""))) = e.tags
    exact tags_roundTrip e.tags htags
  · show List.map (fun q => (q.key, q.value))
      (if jsJoin "; " (e.parameters.map (fun q => q.key ++ ": " ++ q.value)) == "" then []
       else (mapWithIndex (importParam uuidP) 0
          (jsSplit ';' (jsJoin "; " (e.parameters.map (fun q => q.key ++ ": " ++ q.value))))).filter
          (fun p => !(p.key == "") && !(p.value == "")))
      = e.parameters.map (fun q => (q.key, q.value))
    by_cases hp0 : e.parameters = []
    · rw [hp0]
      rfl
    · have hpne : e.parameters ≠ [] := hp0
      have hcell : jsJoin "; " (e.parameters.map (fun q => q.key ++ ": " ++ q.value)) ≠ "" := by
        apply jsJoin_ne_empty
        · simpa using hpne
        · intro x hx
          obtain ⟨p, hpmem, hpx⟩ := List.mem_map.mp hx
          rw [← hpx]
          exact append_ne_empty_of_left _ _
            (append_ne_empty_of_left _ _ (hparams p hpmem).1)
      rw [if_neg (by simpa using hcell)]
      rw [importParams_eq uuidP 0]
      have hsplitmap : (jsSplit ';'
            (jsJoin "; " (e.parameters.map (fun q => q.key ++ ": " ++ q.value)))).map
            (fun s => kvOfList s.toList)
          = (splitOnChar ';'
              (jsJoin "; " (e.parameters.map (fun q => q.key ++ ": " ++ q.value))).toList).map
            kvOfList := by
        unfold jsSplit
        rw [List.map_map]
        rfl
      rw [hsplitmap]
      exact paramKVs_join e.parameters hpne hparams
  · obtain ⟨b, hb⟩ := Option.isSome_iff_exists.mp hfav
    show some ((if (e.isFavorite.getD false) = true then "Yes" else "No") == "Yes")
      = e.isFavorite
    rw [hb]
    cases b
    · rfl
    · rfl

/-- Counterexample for C1 as stated: a parameter whose value is empty is
exported as `"k: "` and silently dropped by the import parser, so the
key/value pairs are not reproduced. -/
theorem exportImport_counterexample :
    ((importFromExcel (fun _ _ => "u") (fun _ => "v") (fun s => s) "T"
      (exportToExcelWithImages (fun s => s)
        [{ id := "a", prompt := "p", parameters := [⟨"q", "k", ""⟩], tags := []
           createdAt := "2024", isFavorite := some false }])).map
      (fun e => e.parameters.map (fun q => (q.key, q.value))) = [[]]) ∧
    ([[]] : List (List (String × String))) ≠ [[("k", "")]] := by
  exact ⟨by decide, by decide⟩

/-- C1 (amended).  For entries whose tags are nonempty, trim-stable and
comma-free, whose parameter keys and values are nonempty, trim-stable and free
of `:` and `;`, whose model is not the empty string, and whose favorite flag
is explicitly set, exporting to spreadsheet rows and importing back reproduces
`prompt`, `model`, `tags`, the parameter key/value pairs in order, and
`isFavorite` exactly for every entry, while both images of every imported
entry are unset. -/
theorem exportImport_roundTrip (toLocale parseDate : String → String)
    (uuidP : Nat → Nat → String) (uuidE : Nat → String) (now : String)
    (entries : List PromptEntry) (h : ∀ e ∈ entries, roundTrippable e) :
    (importFromExcel uuidP uuidE parseDate now
      (exportToExcelWithImages toLocale entries)).length = entries.length ∧
    ∀ (i : Nat) (e : PromptEntry), entries[i]? = some e →
      ∃ e', (importFromExcel uuidP uuidE parseDate now
          (exportToExcelWithImages toLocale entries))[i]? = some e' ∧
        e'.prompt = e.prompt ∧ e'.model = e.model ∧ e'.tags = e.tags ∧
        e'.parameters.map (fun q => (q.key, q.value)) =
          e.parameters.map (fun q => (q.key, q.value)) ∧
        e'.isFavorite = e.isFavorite ∧ e'.beforeImage = none ∧ e'.afterImage = none := by
  constructor
  · unfold importFromExcel exportToExcelWithImages
    rw [length_mapWithIndex, length_mapWithIndex]
  · intro i e he
    unfold importFromExcel exportToExcelWithImages
    rw [getElem?_mapWithIndex, getElem?_mapWithIndex, he, Option.map_some',
      Option.map_some', Nat.zero_add]
    refine ⟨_, rfl, ?_⟩
    exact importRow_exportRow toLocale parseDate (uuidP i) (uuidE i) now (i + 1) e
      (h e (List.getElem?_mem he)) _ rfl

/-- Witness for C1: a concrete well-behaved entry round-trips, with images
unset after import. -/
theorem exportImport_roundTrip_witness :
    ∃ e', (importFromExcel (fun _ _ => "u") (fun _ => "v") (fun s => s) "T"
        (exportToExcelWithImages (fun s => s)
          [{ id := "a", prompt := "cat", model := some "SDXL"
             parameters := [⟨"pid", "cfg", "7.5"⟩], tags := ["x", "y z"]
             createdAt := "2024-01-01", isFavorite := some true
             beforeImage := some "IMG" }]))[0]? = some e' ∧
      e'.prompt = "cat" ∧ e'.model = some "SDXL" ∧ e'.tags = ["x", "y z"] ∧
      e'.parameters.map (fun q => (q.key, q.value)) = [("cfg", "7.5")] ∧
      e'.isFavorite = some true ∧ e'.beforeImage = none ∧ e'.afterImage = none := by
  obtain ⟨e', h1, h2, h3, h4, h5, h6, h7, h8⟩ :=
    (exportImport_roundTrip (fun s => s) (fun s => s) (fun _ _ => "u") (fun _ => "v") "T"
      [{ id := "a", prompt := "cat", model := some "SDXL"
         parameters := [⟨"pid", "cfg", "7.5"⟩], tags := ["x", "y z"]
         createdAt := "2024-01-01", isFavorite := some true
         beforeImage := some "IMG" }] (by decide)).2 0 _ rfl
  exact ⟨e', h1, h2, h3, h4, by rw [h5]; rfl, h6, h7, h8⟩
